import Mathlib

/-!
Verification of the voice-assistant audio pipeline:
a shallow embedding of `wavUtils.ts`, `segmentQueueService.ts` and
`streamingAudioPlayer.ts`, with theorems about the framing utility,
the segment scheduler and the playback engine.

Byte sequences are modelled as `List Nat` (each element a byte value);
audio-clock times as rationals.
-/

namespace Wav

/-- Little-endian serialisation of a 32-bit value (DataView.setUint32 with
littleEndian = true). -/
def u32le (n : Nat) : List Nat :=
  [n % 256, n / 256 % 256, n / 2 ^ 16 % 256, n / 2 ^ 24 % 256]

/-- Big-endian serialisation of a 32-bit value (DataView.setUint32 with
littleEndian = false). -/
def u32be (n : Nat) : List Nat :=
  [n / 2 ^ 24 % 256, n / 2 ^ 16 % 256, n / 256 % 256, n % 256]

/-- Little-endian serialisation of a 16-bit value (DataView.setUint16 with
littleEndian = true). -/
def u16le (n : Nat) : List Nat :=
  [n % 256, n / 256 % 256]

/-- `WavConfig` from `wavUtils.ts`. -/
structure WavConfig where
  sampleRate : Nat
  channels : Nat
  bitsPerSample : Nat
deriving DecidableEq, Repr

/-- `createWavFromPCM` from `wavUtils.ts`: a 44-byte RIFF/WAVE header
followed by the PCM payload. -/
def createWavFromPCM (pcmData : List Nat) (config : WavConfig) : List Nat :=
  let bytesPerSample := config.bitsPerSample / 8
  let blockAlign := config.channels * bytesPerSample
  let byteRate := config.sampleRate * blockAlign
  let dataSize := pcmData.length
  let fileSize := 44 + dataSize
  u32be 0x52494646 ++ u32le (fileSize - 8) ++ u32be 0x57415645 ++
  u32be 0x666d7420 ++ u32le 16 ++ u16le 1 ++ u16le config.channels ++
  u32le config.sampleRate ++ u32le byteRate ++ u16le blockAlign ++
  u16le config.bitsPerSample ++
  u32be 0x64617461 ++ u32le dataSize ++ pcmData

/-- `hasWavHeader` from `wavUtils.ts`: at least 12 bytes, "RIFF" magic at
offset 0 and "WAVE" magic at offset 8. -/
def hasWavHeader (data : List Nat) : Bool :=
  if data.length < 12 then false
  else
    (data.getD 0 0 == 82 && data.getD 1 0 == 73 &&
     data.getD 2 0 == 70 && data.getD 3 0 == 70) &&
    (data.getD 8 0 == 87 && data.getD 9 0 == 65 &&
     data.getD 10 0 == 86 && data.getD 11 0 == 69)

/-- `extractPCMFromChunk` from `wavUtils.ts`: strip a detected 44-byte
header, return an empty result for a header-only chunk, and pass raw
data through unchanged. -/
def extractPCMFromChunk (data : List Nat) : List Nat :=
  if hasWavHeader data then
    if 44 < data.length then data.drop 44
    else []
  else data

end Wav

namespace Player

/-- The scheduling step of `StreamingAudioPlayer.playChunk`
(`streamingAudioPlayer.ts`, lines 286-301): snap `playTime` forward to
`now + 0.01` if it is behind, start the source at the snapped time, then
advance `playTime` by the decoded buffer's duration.  Returns
`(scheduledAt, newPlayTime)`. -/
def scheduleChunk (playTime now duration : ℚ) : ℚ × ℚ :=
  let pt := if playTime < now + 1 / 100 then now + 1 / 100 else playTime
  (pt, pt + duration)

end Player

namespace Queue

/-- `TextSegment` from `segmentQueueService.ts` (the fields the scheduler
reads and writes; timing fields are tracked in the per-segment model). -/
structure TextSegment where
  id : String
  text : String
  audioChunks : List (List Nat)
  isPlaying : Bool
  isComplete : Bool
  priority : Option Int
  readyForPlayback : Bool
deriving DecidableEq, Repr

/-- `SegmentQueueConfig` from `segmentQueueService.ts`: every field
optional. -/
structure SegmentQueueConfig where
  maxConcurrentSegments : Option Nat := none
  maxQueueSize : Option Nat := none
  progressUpdateInterval : Option Nat := none
  autoPlayNextSegment : Option Bool := none
  enablePrioritization : Option Bool := none
  memoryCleanupThreshold : Option Nat := none
deriving DecidableEq, Repr

/-- `Required<SegmentQueueConfig>`: the configuration after the
constructor fills in defaults. -/
structure ResolvedConfig where
  maxConcurrentSegments : Nat
  maxQueueSize : Nat
  progressUpdateInterval : Nat
  autoPlayNextSegment : Bool
  enablePrioritization : Bool
  memoryCleanupThreshold : Nat
deriving DecidableEq, Repr

/-- The default-filling logic of the `SegmentQueueService` constructor
(`segmentQueueService.ts`, lines 58-65): each `??` fallback. -/
def resolveConfig (config : SegmentQueueConfig) : ResolvedConfig where
  maxConcurrentSegments := config.maxConcurrentSegments.getD 3
  maxQueueSize := config.maxQueueSize.getD 50
  progressUpdateInterval := config.progressUpdateInterval.getD 100
  autoPlayNextSegment := config.autoPlayNextSegment.getD true
  enablePrioritization := config.enablePrioritization.getD true
  memoryCleanupThreshold := config.memoryCleanupThreshold.getD 20

/-- The configuration the `StreamingAudioPlayer` constructor passes to
its `SegmentQueueService` (`streamingAudioPlayer.ts`, lines 60-65). -/
def streamingPlayerConfig : SegmentQueueConfig where
  maxConcurrentSegments := some 1
  maxQueueSize := some 100
  progressUpdateInterval := some 50
  autoPlayNextSegment := some true

/-- The mutable state of a `SegmentQueueService`: the pending queue, the
active and completed maps (association lists keyed by segment id) and the
processing flags. -/
structure QueueState where
  queue : List TextSegment
  activeSegments : List (String × TextSegment)
  completedSegments : List (String × TextSegment)
  isProcessing : Bool
  isPaused : Bool
deriving DecidableEq, Repr

/-- `cleanupSegment` from `segmentQueueService.ts`: drop the audio
buffers and stop playback of the segment. -/
def cleanupSegment (segment : TextSegment) : TextSegment :=
  { segment with audioChunks := [], isPlaying := false }

/-- Stable insertion of a segment into a list sorted by descending
priority (a missing priority counts as 0): the inserted segment goes
before the first strictly lower-priority element, matching the stable
JavaScript `sort((a, b) => (b.priority || 0) - (a.priority || 0))`. -/
def insertByPriority (x : TextSegment) : List TextSegment → List TextSegment
  | [] => [x]
  | y :: ys =>
      if y.priority.getD 0 < x.priority.getD 0 then x :: y :: ys
      else y :: insertByPriority x ys

/-- The priority sort `addSegment` applies when prioritization is
enabled. -/
def sortByPriority (l : List TextSegment) : List TextSegment :=
  l.foldr insertByPriority []

/-- `addSegment` from `segmentQueueService.ts`: validate, evict the queue
front when full (cleaning it up), set defaults on the new segment, push
it and optionally re-sort by priority.  Returns the Boolean result
together with the new state. -/
def addSegment (cfg : ResolvedConfig) (st : QueueState) (segment : TextSegment) :
    Bool × QueueState :=
  if segment.id = "" ∨ segment.text = "" then (false, st)
  else
    let q1 :=
      if cfg.maxQueueSize ≤ st.queue.length then st.queue.tail
      else st.queue
    let seg' := { segment with
      priority := some (segment.priority.getD 0)
      isPlaying := false
      isComplete := false }
    let q2 := q1 ++ [seg']
    let q3 := if cfg.enablePrioritization then sortByPriority q2 else q2
    (true, { st with queue := q3 })

/-- `clearAndReset` from `segmentQueueService.ts`: stop and clean active
segments, empty the queue and the active map, reset both processing
flags; the completed map is not touched. -/
def clearAndReset (st : QueueState) : QueueState :=
  { st with
    queue := []
    activeSegments := []
    isProcessing := false
    isPaused := false }

/-- `clearSegmentsByIds` from `segmentQueueService.ts`: remove (and clean
up) every segment whose id is in the given set, from both the queue and
the active map. -/
def clearSegmentsByIds (ids : List String) (st : QueueState) : QueueState :=
  { st with
    queue := st.queue.filter (fun s => ¬ ids.contains s.id)
    activeSegments := st.activeSegments.filter (fun p => ¬ ids.contains p.1) }

/-- The record returned by `getStatus`. -/
structure Status where
  queueLength : Nat
  activeSegments : Nat
  completedSegments : Nat
  isProcessing : Bool
deriving DecidableEq, Repr

/-- `getStatus` from `segmentQueueService.ts`. -/
def getStatus (st : QueueState) : Status where
  queueLength := st.queue.length
  activeSegments := st.activeSegments.length
  completedSegments := st.completedSegments.length
  isProcessing := st.isProcessing

/-- Extract the first queue entry marked `readyForPlayback`
(`processQueue`'s `findIndex` + `splice`), returning it with the rest of
the queue. -/
def extractReady : List TextSegment → Option (TextSegment × List TextSegment)
  | [] => none
  | s :: rest =>
      if s.readyForPlayback then some (s, rest)
      else
        match extractReady rest with
        | none => none
        | some (r, rest') => some (r, s :: rest')

/-- Insert into or update an association list (`Map.set`). -/
def mapSet (k : String) (v : TextSegment) :
    List (String × TextSegment) → List (String × TextSegment)
  | [] => [(k, v)]
  | (k', v') :: rest =>
      if k' = k then (k, v) :: rest else (k', v') :: mapSet k v rest

/-- Service-level actions: one activation step of `processQueue`, a
`completeSegment` call, and the public mutators. -/
inductive QAct where
  | activate
  | completeSeg (id : String) (seg : TextSegment)
  | enqueue (seg : TextSegment)
  | pauseQ
  | resumeQ
  | reset
  | clearIds (ids : List String)
  | stopQ
deriving DecidableEq, Repr

/-- One service-level transition.  `activate` models the body of the
`processQueue` loop: it fires only while `activeSegments.size` is below
`maxConcurrentSegments` and a ready segment exists, and moves that
segment into the active map.  `completeSeg` models `completeSegment`:
the segment leaves the active map and is recorded in the completed map.
The remaining actions are the public mutators modelled above. -/
def qStep (cfg : ResolvedConfig) (st : QueueState) : QAct → Option QueueState
  | .activate =>
      if st.activeSegments.length < cfg.maxConcurrentSegments then
        match extractReady st.queue with
        | none => none
        | some (seg, rest) =>
            some { st with
              queue := rest
              activeSegments := st.activeSegments ++ [(seg.id, seg)] }
      else none
  | .completeSeg id seg =>
      some { st with
        activeSegments := st.activeSegments.filter (fun p => p.1 ≠ id)
        completedSegments := mapSet id seg st.completedSegments }
  | .enqueue seg => some (addSegment cfg st seg).2
  | .pauseQ =>
      some { st with
        activeSegments := st.activeSegments.map
          (fun p => (p.1, { p.2 with isPlaying := false }))
        isProcessing := false }
  | .resumeQ =>
      some { st with
        activeSegments := st.activeSegments.map
          (fun p => (p.1, { p.2 with isPlaying := true })) }
  | .reset => some (clearAndReset st)
  | .clearIds ids => some (clearSegmentsByIds ids st)
  | .stopQ =>
      some { st with queue := [], activeSegments := [], isProcessing := false }

end Queue

namespace Seg

/-- Suspension points of the `playSegment` coroutine
(`segmentQueueService.ts`, lines 221-296): `check` is the top of the
`while (segment.isPlaying)` loop, `dispatched` is the pending
`await playAudioChunk`, `delay5` the 5 ms pause after a successful
chunk, `waiting` the 100 ms wait for more chunks, and `done` the state
after `completeSegment` ran. -/
inductive PC where
  | check
  | dispatched
  | delay5
  | waiting
  | done
deriving DecidableEq, Repr

/-- Observable callbacks fired for one segment. -/
inductive Event where
  | chunkPlayed (idx : Nat) (portion : String)
  | segmentEnd
deriving DecidableEq, Repr

/-- The state of one segment from the moment `processQueue` activates it
and calls `playSegment`: the segment's own fields, its position in the
service's maps, the coroutine program counter and the log of events
fired so far. -/
structure SegState where
  text : String
  chunks : List (List Nat)
  cursor : Nat
  isPlaying : Bool
  isComplete : Bool
  inActive : Bool
  inCompleted : Bool
  readyForPlayback : Bool
  pc : PC
  pendingIdx : Nat
  pendingPortion : String
  events : List Event
deriving DecidableEq, Repr

/-- Split a character list at every single space, JavaScript
`text.split(' ')` style: the empty text gives one empty word, and
consecutive spaces give empty words. -/
def splitSpaces : List Char → List (List Char)
  | [] => [[]]
  | c :: rest =>
      match splitSpaces rest with
      | [] => [[]]
      | w :: ws => if c = ' ' then [] :: w :: ws else (c :: w) :: ws

/-- `text.split(' ')` as a list of strings. -/
def splitOnSpace (text : String) : List String :=
  (splitSpaces text.data).map String.mk

/-- The text portion computed for chunk `idx` when the segment has
`total` buffered chunks (`playSegment`, lines 252-256): split the text
on spaces, take `ceil(words / total)` words per chunk, slice and
re-join. -/
def textPortion (text : String) (idx total : Nat) : String :=
  let words := splitOnSpace text
  let totalChunks := if total = 0 then 1 else total
  let wordsPerChunk := (words.length + totalChunks - 1) / totalChunks
  let startWordIndex := idx * wordsPerChunk
  let endWordIndex := min (startWordIndex + wordsPerChunk) words.length
  String.intercalate " "
    ((words.drop startWordIndex).take (endWordIndex - startWordIndex))

/-- `completeSegment` (`segmentQueueService.ts`, lines 371-401), run
synchronously when the `playSegment` loop exits: stop the segment, mark
it complete, move it from the active to the completed map and fire
`onSegmentEnd`. -/
def completeSegment (s : SegState) : SegState :=
  { s with
    isPlaying := false
    isComplete := true
    inActive := false
    inCompleted := true
    pc := PC.done
    events := s.events ++ [Event.segmentEnd] }

/-- Actions on an activated segment: `tick` resumes the coroutine at a
suspension point, `playOk`/`playFail` resolve the in-flight
`playAudioChunk`, and the rest are the external producer/control calls
that can run while the coroutine is suspended. -/
inductive Act where
  | tick
  | playOk
  | playFail
  | addChunk (data : List Nat)
  | markReady
  | markAudioComplete
  | pauseSvc
  | resumeSvc
  | clearSelf
deriving DecidableEq, Repr

/-- One transition of the interleaved system.  `tick` at `check` is the
loop test of `playSegment`: exit (and `completeSegment`) when
`isPlaying` is false; dispatch the next chunk (recording its text
portion) when one is buffered; exit when the segment is audio-complete
and every buffered chunk was played; otherwise wait.  `playOk` runs the
code after `await playAudioChunk`: advance the cursor and fire
`onChunkPlayed` when the pre-computed portion is non-empty.  `playFail`
is the `catch`: advance the cursor only.  The external actions mirror
`addAudioToSegment`, `markSegmentReady`, `markSegmentAudioComplete`,
`pause`, `resume` and `clearSegmentsByIds` restricted to this
segment. -/
def step (s : SegState) : Act → Option SegState
  | .tick =>
      match s.pc with
      | .check =>
          if ¬ s.isPlaying then some (completeSegment s)
          else if s.cursor < s.chunks.length then
            some { s with
              pc := PC.dispatched
              pendingIdx := s.cursor
              pendingPortion := textPortion s.text s.cursor s.chunks.length }
          else if s.isComplete then some (completeSegment s)
          else some { s with pc := PC.waiting }
      | .dispatched => none
      | .delay5 => some { s with pc := PC.check }
      | .waiting => some { s with pc := PC.check }
      | .done => none
  | .playOk =>
      if s.pc = PC.dispatched then
        some { s with
          cursor := s.cursor + 1
          pc := PC.delay5
          events := s.events ++
            (if s.pendingPortion = "" then []
             else [Event.chunkPlayed s.pendingIdx s.pendingPortion]) }
      else none
  | .playFail =>
      if s.pc = PC.dispatched then
        some { s with cursor := s.cursor + 1, pc := PC.check }
      else none
  | .addChunk data =>
      if s.inActive ∧ data ≠ [] then
        some { s with chunks := s.chunks ++ [data] }
      else none
  | .markReady =>
      if s.inActive ∨ s.inCompleted then
        some { s with readyForPlayback := true, isComplete := false }
      else none
  | .markAudioComplete =>
      if s.inActive ∨ s.inCompleted then
        some { s with isComplete := true }
      else none
  | .pauseSvc =>
      some (if s.inActive then { s with isPlaying := false } else s)
  | .resumeSvc =>
      some (if s.inActive then { s with isPlaying := true } else s)
  | .clearSelf =>
      some (if s.inActive then
        { s with isPlaying := false, chunks := [], inActive := false }
      else s)

/-- Run a list of actions from a state, failing if any action does not
apply. -/
def run (s : SegState) : List Act → Option SegState
  | [] => some s
  | a :: rest =>
      match step s a with
      | none => none
      | some s' => run s' rest

/-- The state `playSegment` starts from, right after `processQueue`
moved the segment into the active map: playing, cursor 0, at the top of
the loop. -/
def activate (text : String) (chunks : List (List Nat)) (isComplete : Bool) :
    SegState where
  text := text
  chunks := chunks
  cursor := 0
  isPlaying := true
  isComplete := isComplete
  inActive := true
  inCompleted := false
  readyForPlayback := true
  pc := PC.check
  pendingIdx := 0
  pendingPortion := ""
  events := []

/-- Count the `onChunkPlayed` events in a log. -/
def chunkEvents : List Event → Nat
  | [] => 0
  | Event.chunkPlayed _ _ :: rest => chunkEvents rest + 1
  | Event.segmentEnd :: rest => chunkEvents rest

end Seg

namespace Player

/-- `MAX_RETRIES` in `playChunk`. -/
def MAX_RETRIES : Nat := 3

/-- `RETRY_DELAY` in `playChunk`, in milliseconds. -/
def RETRY_DELAY : Nat := 100

/-- The retry skeleton of `StreamingAudioPlayer.playChunk`
(`streamingAudioPlayer.ts`, lines 184-338).  `attemptFails n` says
whether the n-th decode/play attempt on this chunk throws; `stopReq` is
`stopRequested`; `suspended` whether the AudioContext reports
`suspended` when all retries are spent.  Arguments after the colon:
the current attempt index, the suspended flag and `retryCount`.
Returns `(success, attemptsMade, totalBackoffMs)`: on error the code
retries after a fixed `RETRY_DELAY` while `retryCount < MAX_RETRIES`
and no stop was requested, then makes one recovery call at
`MAX_RETRIES` if the context was merely suspended, and otherwise
returns `false`. -/
def playChunkFrom (attemptFails : Nat → Bool) (stopReq : Bool) :
    Nat → Bool → Nat → Bool × Nat × Nat
  | attemptIx, suspended, retryCount =>
    if stopReq then (false, 0, 0)
    else if attemptFails attemptIx = false then (true, 1, 0)
    else if retryCount < MAX_RETRIES then
      let r := playChunkFrom attemptFails stopReq (attemptIx + 1) suspended
        (retryCount + 1)
      (r.1, r.2.1 + 1, r.2.2 + RETRY_DELAY)
    else if suspended then
      let r := playChunkFrom attemptFails stopReq (attemptIx + 1) false
        MAX_RETRIES
      (r.1, r.2.1 + 1, r.2.2)
    else (false, 1, 0)
termination_by _i s r => (if s then 1 else 0) + (4 - min r 3)
decreasing_by
  all_goals simp only [MAX_RETRIES] at *
  all_goals cases suspended <;> simp_all <;> omega

/-- Entry point: `playChunk(audioData)` starts at `retryCount = 0`. -/
def playChunk (attemptFails : Nat → Bool) (stopReq suspended : Bool) :
    Bool × Nat × Nat :=
  playChunkFrom attemptFails stopReq 0 suspended 0

end Player

/-! ## Theorems -/

namespace Wav

theorem createWavFromPCM_length (pcm : List Nat) (cfg : WavConfig) :
    (createWavFromPCM pcm cfg).length = 44 + pcm.length := by
  simp [createWavFromPCM, u32le, u32be, u16le]
  omega

theorem createWavFromPCM_hasWavHeader (pcm : List Nat) (cfg : WavConfig) :
    hasWavHeader (createWavFromPCM pcm cfg) = true := by
  simp only [createWavFromPCM, u32le, u32be, u16le, hasWavHeader]
  norm_num [List.getD]

theorem createWavFromPCM_drop44 (pcm : List Nat) (cfg : WavConfig) :
    (createWavFromPCM pcm cfg).drop 44 = pcm := rfl

end Wav

namespace Player

theorem scheduleChunk_fst (pt now dur : ℚ) :
    (scheduleChunk pt now dur).1 = max pt (now + 1 / 100) := by
  unfold scheduleChunk
  dsimp only
  by_cases hlt : pt < now + 1 / 100
  · rw [if_pos hlt, max_eq_right hlt.le]
  · rw [if_neg hlt, max_eq_left (not_lt.mp hlt)]

theorem scheduleChunk_snd (pt now dur : ℚ) :
    (scheduleChunk pt now dur).2 = (scheduleChunk pt now dur).1 + dur := by
  unfold scheduleChunk
  dsimp only

end Player

/-- Claim C1: unwrapping a framed container returns exactly the original
bytes — for every non-empty PCM byte sequence and every
(sampleRate, channels, bitsPerSample) configuration,
`extractPCMFromChunk (createWavFromPCM pcm cfg) = pcm`. -/
theorem wav_frame_unwrap_roundtrip (pcm : List Nat) (cfg : Wav.WavConfig)
    (h : pcm ≠ []) :
    Wav.extractPCMFromChunk (Wav.createWavFromPCM pcm cfg) = pcm := by
  have hlen := Wav.createWavFromPCM_length pcm cfg
  have hp : 0 < pcm.length := List.length_pos.mpr h
  unfold Wav.extractPCMFromChunk
  rw [Wav.createWavFromPCM_hasWavHeader]
  rw [if_pos rfl, if_pos (by omega)]
  exact Wav.createWavFromPCM_drop44 pcm cfg

/-- Witness for C1: the round-trip at the concrete payload `[1, 2, 3]`
with the default 22050 Hz / mono / 16-bit configuration. -/
theorem wav_frame_unwrap_roundtrip_witness :
    ([1, 2, 3] : List Nat) ≠ [] ∧
    Wav.extractPCMFromChunk
      (Wav.createWavFromPCM [1, 2, 3] ⟨22050, 1, 16⟩) = [1, 2, 3] :=
  ⟨by decide, wav_frame_unwrap_roundtrip [1, 2, 3] ⟨22050, 1, 16⟩ (by decide)⟩

/-- Claim C8 counterexample: the one-byte input `[1]` is shorter than the
44-byte container header, yet `extractPCMFromChunk` returns it
unchanged (non-empty), because no WAV header is detected and the chunk
is treated as raw PCM. -/
theorem extractPCM_short_input_counterexample :
    ([1] : List Nat).length < 44 ∧
    Wav.extractPCMFromChunk [1] = [1] ∧
    Wav.extractPCMFromChunk [1] ≠ [] := by decide

/-- Claim C8 (amended): for input shorter than the 44-byte header,
`extractPCMFromChunk` yields an empty result when a WAV header is
detected (RIFF/WAVE magic, at least 12 bytes); input without a detected
header is returned unchanged, treated as raw PCM. -/
theorem extractPCM_short_input (data : List Nat) (h : data.length < 44) :
    (Wav.hasWavHeader data = true → Wav.extractPCMFromChunk data = []) ∧
    (Wav.hasWavHeader data = false → Wav.extractPCMFromChunk data = data) := by
  refine ⟨fun hh => ?_, fun hh => ?_⟩
  · simp only [Wav.extractPCMFromChunk, hh, if_true]
    rw [if_neg (by omega)]
  · simp only [Wav.extractPCMFromChunk, hh]
    simp

/-- Witness for the amended C8, at a header-only 12-byte RIFF/WAVE
chunk. -/
theorem extractPCM_short_input_witness :
    ([82, 73, 70, 70, 0, 0, 0, 0, 87, 65, 86, 69] : List Nat).length < 44 ∧
    ((Wav.hasWavHeader [82, 73, 70, 70, 0, 0, 0, 0, 87, 65, 86, 69] = true →
      Wav.extractPCMFromChunk [82, 73, 70, 70, 0, 0, 0, 0, 87, 65, 86, 69] = []) ∧
     (Wav.hasWavHeader [82, 73, 70, 70, 0, 0, 0, 0, 87, 65, 86, 69] = false →
      Wav.extractPCMFromChunk [82, 73, 70, 70, 0, 0, 0, 0, 87, 65, 86, 69] =
        [82, 73, 70, 70, 0, 0, 0, 0, 87, 65, 86, 69])) :=
  ⟨by decide, extractPCM_short_input _ (by decide)⟩

/-- Claim C4: for every `playChunk` scheduling step, the scheduled start
is `max playTime (now + 0.01)` (hence strictly after `now`), the updated
`playTime` is the scheduled start plus exactly the buffer's duration,
and any subsequently scheduled chunk starts no earlier than this
chunk's scheduled end — back-to-back with no overlap. -/
theorem playChunk_scheduling (playTime now dur : ℚ) :
    (Player.scheduleChunk playTime now dur).1 = max playTime (now + 1 / 100) ∧
    now < (Player.scheduleChunk playTime now dur).1 ∧
    (Player.scheduleChunk playTime now dur).2 =
      (Player.scheduleChunk playTime now dur).1 + dur ∧
    ∀ now₂ dur₂,
      (Player.scheduleChunk playTime now dur).1 + dur ≤
        (Player.scheduleChunk (Player.scheduleChunk playTime now dur).2
          now₂ dur₂).1 := by
  refine ⟨Player.scheduleChunk_fst _ _ _, ?_, Player.scheduleChunk_snd _ _ _,
    fun now₂ dur₂ => ?_⟩
  · rw [Player.scheduleChunk_fst]
    have hnow : now < now + 1 / 100 := by linarith
    exact hnow.trans_le (le_max_right _ _)
  · rw [Player.scheduleChunk_fst playTime now dur,
      Player.scheduleChunk_fst ((Player.scheduleChunk playTime now dur).2),
      Player.scheduleChunk_snd, Player.scheduleChunk_fst]
    exact le_max_left _ _

namespace Queue

theorem addSegment_activeSegments (cfg : ResolvedConfig) (st : QueueState)
    (seg : TextSegment) :
    ((addSegment cfg st seg).2).activeSegments = st.activeSegments := by
  unfold addSegment
  split <;> rfl

theorem addSegment_completedSegments (cfg : ResolvedConfig) (st : QueueState)
    (seg : TextSegment) :
    ((addSegment cfg st seg).2).completedSegments = st.completedSegments := by
  unfold addSegment
  split <;> rfl

theorem insertByPriority_length (x : TextSegment) (l : List TextSegment) :
    (insertByPriority x l).length = l.length + 1 := by
  induction l with
  | nil => rfl
  | cons y ys ih =>
      unfold insertByPriority
      split
      · simp
      · simp [ih]

theorem sortByPriority_length (l : List TextSegment) :
    (sortByPriority l).length = l.length := by
  unfold sortByPriority
  induction l with
  | nil => rfl
  | cons y ys ih => simp [List.foldr, insertByPriority_length, ih]

theorem mem_insertByPriority_self (x : TextSegment) (l : List TextSegment) :
    x ∈ insertByPriority x l := by
  induction l with
  | nil => simp [insertByPriority]
  | cons y ys ih =>
      unfold insertByPriority
      split
      · simp
      · simp [ih]

theorem mem_sortByPriority_last (x : TextSegment) (l : List TextSegment) :
    x ∈ sortByPriority (l ++ [x]) := by
  unfold sortByPriority
  induction l with
  | nil => simpa using mem_insertByPriority_self x []
  | cons y ys ih =>
      simp only [List.cons_append, List.foldr_cons]
      exact (mem_insertByPriority_mono ih)
where
  mem_insertByPriority_mono {a y : TextSegment} {l : List TextSegment}
      (h : a ∈ l) : a ∈ insertByPriority y l := by
    induction l with
    | nil => cases h
    | cons z zs ih =>
        unfold insertByPriority
        split
        · exact List.mem_cons_of_mem _ h
        · rcases List.mem_cons.mp h with h | h
          · exact h ▸ List.mem_cons_self _ _
          · exact List.mem_cons_of_mem _ (ih h)

end Queue

/-- Claim C3 counterexample: under the `SegmentQueueService` constructor's
own defaults the concurrency bound `maxConcurrentSegments` resolves to 3,
not 1. -/
theorem default_concurrency_counterexample :
    (Queue.resolveConfig {}).maxConcurrentSegments = 3 ∧
    (Queue.resolveConfig {}).maxConcurrentSegments ≠ 1 := by decide

/-- Claim C3 (amended): at most `maxConcurrentSegments` segments are
concurrently active — every service-level transition preserves
`activeSegments.size ≤ maxConcurrentSegments`, since `processQueue`
activates a segment only below the bound — but the default bound is 3,
not 1; the bound 1 is what the `StreamingAudioPlayer` wrapper passes
explicitly. -/
theorem active_segments_bounded :
    (Queue.resolveConfig {}).maxConcurrentSegments = 3 ∧
    (Queue.resolveConfig Queue.streamingPlayerConfig).maxConcurrentSegments = 1 ∧
    ∀ (cfg : Queue.ResolvedConfig) (st st' : Queue.QueueState) (a : Queue.QAct),
      Queue.qStep cfg st a = some st' →
      st.activeSegments.length ≤ cfg.maxConcurrentSegments →
      st'.activeSegments.length ≤ cfg.maxConcurrentSegments := by
  refine ⟨by decide, by decide, ?_⟩
  intro cfg st st' a h hle
  cases a with
  | activate =>
      simp only [Queue.qStep] at h
      split at h
      · cases hext : Queue.extractReady st.queue with
        | none => rw [hext] at h; exact absurd h (by simp)
        | some pr =>
            obtain ⟨seg, rest⟩ := pr
            rw [hext] at h
            simp only [Option.some.injEq] at h
            subst h
            simp only [List.length_append, List.length_cons, List.length_nil]
            omega
      · exact absurd h (by simp)
  | completeSeg id seg =>
      simp only [Queue.qStep, Option.some.injEq] at h
      subst h
      exact le_trans (List.length_filter_le _ _) hle
  | enqueue seg =>
      simp only [Queue.qStep, Option.some.injEq] at h
      subst h
      rw [Queue.addSegment_activeSegments]
      exact hle
  | pauseQ =>
      simp only [Queue.qStep, Option.some.injEq] at h
      subst h
      simpa using hle
  | resumeQ =>
      simp only [Queue.qStep, Option.some.injEq] at h
      subst h
      simpa using hle
  | reset =>
      simp only [Queue.qStep, Option.some.injEq] at h
      subst h
      simp [Queue.clearAndReset]
  | clearIds ids =>
      simp only [Queue.qStep, Option.some.injEq] at h
      subst h
      exact le_trans (List.length_filter_le _ _) hle
  | stopQ =>
      simp only [Queue.qStep, Option.some.injEq] at h
      subst h
      simp

/-- Witness for the amended C3: the empty service state takes a `pause`
step and stays within the default bound. -/
theorem active_segments_bounded_witness :
    Queue.qStep (Queue.resolveConfig {}) ⟨[], [], [], false, false⟩
        Queue.QAct.pauseQ = some ⟨[], [], [], false, false⟩ ∧
    (⟨[], [], [], false, false⟩ : Queue.QueueState).activeSegments.length ≤
      (Queue.resolveConfig {}).maxConcurrentSegments :=
  ⟨by decide,
    (active_segments_bounded.2.2 (Queue.resolveConfig {})
      ⟨[], [], [], false, false⟩ ⟨[], [], [], false, false⟩
      Queue.QAct.pauseQ (by decide) (by decide))⟩

namespace Seg

theorem chunkEvents_append (l₁ l₂ : List Event) :
    chunkEvents (l₁ ++ l₂) = chunkEvents l₁ + chunkEvents l₂ := by
  induction l₁ with
  | nil => simp [chunkEvents]
  | cons e rest ih => cases e <;> (simp [chunkEvents, ih]; try omega)

theorem completeSegment_isComplete (s : SegState) :
    (completeSegment s).isComplete = true := rfl

theorem cleared_step (s s' : SegState) (a : Act)
    (h : step s a = some s') (hp : s.isPlaying = false)
    (hA : s.inActive = false) :
    s'.isPlaying = false ∧ s'.inActive = false ∧
    chunkEvents s'.events + (if s'.pc = PC.dispatched then 1 else 0) ≤
      chunkEvents s.events + (if s.pc = PC.dispatched then 1 else 0) := by
  cases a with
  | tick =>
      simp only [step] at h
      cases hpc : s.pc <;> rw [hpc] at h
      case check =>
        simp only [hp, Bool.false_eq_true, not_false_iff, if_true,
          Option.some.injEq] at h
        subst h
        refine ⟨rfl, rfl, ?_⟩
        simp [completeSegment, chunkEvents_append, chunkEvents, hpc]
      case dispatched => cases h
      case delay5 =>
        simp only [Option.some.injEq] at h
        subst h
        exact ⟨hp, hA, by simp [hpc]⟩
      case waiting =>
        simp only [Option.some.injEq] at h
        subst h
        exact ⟨hp, hA, by simp [hpc]⟩
      case done => cases h
  | playOk =>
      simp only [step] at h
      split at h
      · next hc =>
          simp only [Option.some.injEq] at h
          subst h
          refine ⟨hp, hA, ?_⟩
          simp only [hc, if_pos rfl, chunkEvents_append]
          split
          · simp [chunkEvents]
          · simp [chunkEvents]
      · cases h
  | playFail =>
      simp only [step] at h
      split at h
      · next hc =>
          simp only [Option.some.injEq] at h
          subst h
          refine ⟨hp, hA, ?_⟩
          simp [hc, chunkEvents]
      · cases h
  | addChunk data =>
      simp only [step] at h
      split at h
      · next hc => exact absurd hc.1 (by simp [hA])
      · cases h
  | markReady =>
      simp only [step] at h
      split at h
      · simp only [Option.some.injEq] at h
        subst h
        exact ⟨hp, hA, le_refl _⟩
      · cases h
  | markAudioComplete =>
      simp only [step] at h
      split at h
      · simp only [Option.some.injEq] at h
        subst h
        exact ⟨hp, hA, le_refl _⟩
      · cases h
  | pauseSvc =>
      simp only [step, hA, Bool.false_eq_true, if_false, Option.some.injEq] at h
      subst h
      exact ⟨hp, hA, le_refl _⟩
  | resumeSvc =>
      simp only [step, hA, Bool.false_eq_true, if_false, Option.some.injEq] at h
      subst h
      exact ⟨hp, hA, le_refl _⟩
  | clearSelf =>
      simp only [step, hA, Bool.false_eq_true, if_false, Option.some.injEq] at h
      subst h
      exact ⟨hp, hA, le_refl _⟩

theorem cleared_run (s : SegState) (acts : List Act) (s' : SegState)
    (h : run s acts = some s') (hp : s.isPlaying = false)
    (hA : s.inActive = false) :
    s'.isPlaying = false ∧ s'.inActive = false ∧
    chunkEvents s'.events + (if s'.pc = PC.dispatched then 1 else 0) ≤
      chunkEvents s.events + (if s.pc = PC.dispatched then 1 else 0) := by
  induction acts generalizing s with
  | nil =>
      simp only [run, Option.some.injEq] at h
      subst h
      exact ⟨hp, hA, le_refl _⟩
  | cons a rest ih =>
      simp only [run] at h
      cases hstep : step s a with
      | none => rw [hstep] at h; cases h
      | some s₁ =>
          rw [hstep] at h
          obtain ⟨h1, h2, h3⟩ := cleared_step s s₁ a hstep hp hA
          obtain ⟨g1, g2, g3⟩ := ih s₁ h h1 h2
          exact ⟨g1, g2, le_trans g3 h3⟩

end Seg

/-- Claim C2 counterexample: after a `pause` while a chunk is in flight,
the scheduler completes the segment — fires `onSegmentEnd` and moves it
to the completed set — even though audio-complete was never signaled
(`isComplete = false`) and only 1 of the 2 buffered chunks was handed
over.  Trace: dispatch chunk 0, `pause()`, the chunk finishes, the loop
re-checks `isPlaying` and exits into `completeSegment`. -/
theorem segment_completion_pause_counterexample :
    (Seg.run (Seg.activate "hello world" [[1], [2]] false)
        [Seg.Act.tick, Seg.Act.pauseSvc, Seg.Act.playOk, Seg.Act.tick]).map
          (fun s => (s.isComplete, s.cursor, s.chunks.length, s.inCompleted)) =
      some (false, 1, 2, false) ∧
    (Seg.run (Seg.activate "hello world" [[1], [2]] false)
        [Seg.Act.tick, Seg.Act.pauseSvc, Seg.Act.playOk, Seg.Act.tick,
         Seg.Act.tick]).map
          (fun s => (s.inCompleted, s.events.getLast?)) =
      some (true, some Seg.Event.segmentEnd) := by decide

/-- Claim C2 (amended): at the top of its loop the scheduler completes a
segment — fires `onSegmentEnd` and moves it to the completed set —
exactly when playback was stopped externally (`isPlaying = false`, set
by `pause`/`stop`/`clearSegmentsByIds`) or the caller signaled
audio-complete and every buffered chunk has been handed over
(`cursor ≥ buffer count`); when playback has not been stopped
externally this reduces to the claimed condition. -/
theorem segment_completion_iff (s : Seg.SegState) (h : s.pc = Seg.PC.check) :
    (∃ s', Seg.step s Seg.Act.tick = some s' ∧ s'.inCompleted = true ∧
        s'.events = s.events ++ [Seg.Event.segmentEnd]) ↔
      (s.isPlaying = false ∨
        (s.chunks.length ≤ s.cursor ∧ s.isComplete = true)) := by
  simp only [Seg.step, h]
  constructor
  · rintro ⟨s', hstep, hcomp, hev⟩
    by_cases hp : s.isPlaying = true
    · rw [if_neg (by simp [hp])] at hstep
      by_cases hc : s.cursor < s.chunks.length
      · rw [if_pos hc] at hstep
        simp only [Option.some.injEq] at hstep
        subst hstep
        exact absurd (congrArg List.length hev) (by simp)
      · rw [if_neg hc] at hstep
        by_cases hk : s.isComplete = true
        · exact Or.inr ⟨by omega, hk⟩
        · rw [if_neg hk] at hstep
          simp only [Option.some.injEq] at hstep
          subst hstep
          exact absurd (congrArg List.length hev) (by simp)
    · exact Or.inl (by simpa using hp)
  · intro hcond
    rcases hcond with hp | ⟨hc, hk⟩
    · refine ⟨Seg.completeSegment s, ?_, rfl, rfl⟩
      rw [if_pos (by simp [hp])]
    · by_cases hp : s.isPlaying = true
      · refine ⟨Seg.completeSegment s, ?_, rfl, rfl⟩
        rw [if_neg (by simp [hp]), if_neg (by omega), if_pos hk]
      · refine ⟨Seg.completeSegment s, ?_, rfl, rfl⟩
        rw [if_pos (by simp [Bool.not_eq_true] at hp; simp [hp])]

/-- Witness for the amended C2: a segment with both chunks played and
audio-complete signaled completes on the next loop check. -/
theorem segment_completion_iff_witness :
    (∃ s', Seg.step { Seg.activate "hi" [[1]] true with cursor := 1 }
          Seg.Act.tick = some s' ∧ s'.inCompleted = true ∧
        s'.events = ({ Seg.activate "hi" [[1]] true with
          cursor := 1 } : Seg.SegState).events ++ [Seg.Event.segmentEnd]) ↔
      (({ Seg.activate "hi" [[1]] true with
            cursor := 1 } : Seg.SegState).isPlaying = false ∨
        (({ Seg.activate "hi" [[1]] true with
            cursor := 1 } : Seg.SegState).chunks.length ≤ 1 ∧
         ({ Seg.activate "hi" [[1]] true with
            cursor := 1 } : Seg.SegState).isComplete = true)) :=
  segment_completion_iff { Seg.activate "hi" [[1]] true with cursor := 1 } rfl

/-- Claim C5 counterexample: `markSegmentAudioComplete` sets
`isComplete = true`, but a subsequent `markSegmentReady` on the same
segment resets it to `false` — the state regresses. -/
theorem isComplete_regression_counterexample :
    (Seg.run (Seg.activate "hi" [[1]] false)
        [Seg.Act.markAudioComplete]).map (fun s => s.isComplete) =
      some true ∧
    (Seg.run (Seg.activate "hi" [[1]] false)
        [Seg.Act.markAudioComplete, Seg.Act.markReady]).map
          (fun s => s.isComplete) = some false := by decide

/-- Claim C5 (amended): segment state transitions are monotonic except
through `markSegmentReady`, which unconditionally resets
`isComplete` to `false` (to re-arm streaming playback) even after
`markSegmentAudioComplete`; every operation other than
`markSegmentReady` preserves `isComplete = true`. -/
theorem isComplete_monotone_except_markReady (s s' : Seg.SegState)
    (a : Seg.Act) (hne : a ≠ Seg.Act.markReady)
    (h : Seg.step s a = some s') (hc : s.isComplete = true) :
    s'.isComplete = true := by
  cases a with
  | tick =>
      simp only [Seg.step] at h
      repeat' split at h
      all_goals try cases h
      all_goals first | rfl | exact hc
  | playOk =>
      simp only [Seg.step] at h
      split at h
      · simp only [Option.some.injEq] at h
        subst h
        exact hc
      · cases h
  | playFail =>
      simp only [Seg.step] at h
      split at h
      · simp only [Option.some.injEq] at h
        subst h
        exact hc
      · cases h
  | addChunk data =>
      simp only [Seg.step] at h
      split at h
      · simp only [Option.some.injEq] at h
        subst h
        exact hc
      · cases h
  | markReady => exact absurd rfl hne
  | markAudioComplete =>
      simp only [Seg.step] at h
      split at h
      · simp only [Option.some.injEq] at h
        subst h
        rfl
      · cases h
  | pauseSvc =>
      simp only [Seg.step, Option.some.injEq] at h
      subst h
      split <;> exact hc
  | resumeSvc =>
      simp only [Seg.step, Option.some.injEq] at h
      subst h
      split <;> exact hc
  | clearSelf =>
      simp only [Seg.step, Option.some.injEq] at h
      subst h
      split <;> exact hc

/-- Witness for the amended C5: a `pause` on an audio-complete segment
leaves `isComplete = true`. -/
theorem isComplete_monotone_except_markReady_witness :
    ({ Seg.activate "hi" [[1]] true with
        isPlaying := false } : Seg.SegState).isComplete = true :=
  isComplete_monotone_except_markReady (Seg.activate "hi" [[1]] true)
    { Seg.activate "hi" [[1]] true with isPlaying := false }
    Seg.Act.pauseSvc (by decide) (by decide) (by decide)

/-- Claim C6 counterexample: `clearSegmentsByIds` is called while the
segment's only chunk is in flight; when that chunk's `await` resolves,
the loop body still fires `onChunkPlayed` for it — one further
`onChunkPlayed` event is emitted after the clear call. -/
theorem clear_further_chunkPlayed_counterexample :
    (Seg.run (Seg.activate "hello" [[1]] false)
        [Seg.Act.tick, Seg.Act.clearSelf]).map
          (fun s => (s.inActive, Seg.chunkEvents s.events)) =
      some (false, 0) ∧
    (Seg.run (Seg.activate "hello" [[1]] false)
        [Seg.Act.tick, Seg.Act.clearSelf, Seg.Act.playOk]).map
          (fun s => Seg.chunkEvents s.events) = some 1 := by decide

/-- Claim C6 (amended): after `clearSegmentsByIds({id})` while segment
`id` is playing, no active segment with a cleared id remains —
`getStatus().activeSegments = 0` when every active segment was cleared —
and at most one further `onChunkPlayed` can be emitted for the cleared
segment: the one for a buffer already dispatched (in flight) at clear
time; no further buffers are dispatched afterwards. -/
theorem clear_segments_effective :
    (∀ (st : Queue.QueueState) (ids : List String),
      (Queue.clearSegmentsByIds ids st).activeSegments.filter
          (fun p => ids.contains p.1) = [] ∧
      (st.activeSegments.all (fun p => ids.contains p.1) = true →
        (Queue.getStatus (Queue.clearSegmentsByIds ids st)).activeSegments =
          0)) ∧
    ∀ (s : Seg.SegState) (acts : List Seg.Act) (n : Nat),
      s.inActive = true →
      ((Seg.run s (Seg.Act.clearSelf :: acts)).map
        (fun t => Seg.chunkEvents t.events)) = some n →
      n ≤ Seg.chunkEvents s.events +
        (if s.pc = Seg.PC.dispatched then 1 else 0) := by
  constructor
  · intro st ids
    constructor
    · rw [Queue.clearSegmentsByIds]
      rw [List.filter_filter]
      apply List.filter_eq_nil_iff.mpr
      intro p _
      simp only [Bool.and_eq_true, decide_eq_true_eq]
      rintro ⟨h1, h2⟩
      exact h2 (by simpa using h1)
    · intro hall
      simp only [Queue.getStatus, Queue.clearSegmentsByIds,
        List.length_eq_zero]
      apply List.filter_eq_nil_iff.mpr
      intro p hp
      have := List.all_eq_true.mp hall p hp
      simp_all
  · intro s acts n hA h
    have hstep : Seg.step s Seg.Act.clearSelf =
        some { s with isPlaying := false, chunks := [], inActive := false } := by
      simp [Seg.step, hA]
    simp only [Seg.run, hstep] at h
    cases hrun : Seg.run
        { s with isPlaying := false, chunks := [], inActive := false } acts with
    | none => rw [hrun] at h; cases h
    | some s' =>
        rw [hrun] at h
        simp only [Option.map_some', Option.some.injEq] at h
        subst h
        have h3 := (Seg.cleared_run _ acts s' hrun rfl rfl).2.2
        dsimp only at h3
        omega

/-- Witness for the amended C6: clearing the only active segment leaves
`activeSegments = 0`, and a cleared segment with one chunk in flight
emits at most the one in-flight `onChunkPlayed` over any continuation. -/
theorem clear_segments_effective_witness :
    (Queue.getStatus (Queue.clearSegmentsByIds ["s2"]
        ⟨[], [("s2", ⟨"s2", "hi", [[1]], true, false, some 0, true⟩)], [],
          false, false⟩)).activeSegments = 0 ∧
    (1 : Nat) ≤ Seg.chunkEvents ([] : List Seg.Event) +
      (if Seg.PC.dispatched = Seg.PC.dispatched then 1 else 0) :=
  ⟨(clear_segments_effective.1 _ ["s2"]).2 (by decide),
   clear_segments_effective.2
     ⟨"hello", [[1]], 0, true, false, true, false, true, Seg.PC.dispatched,
       0, "hello", []⟩
     [Seg.Act.playOk, Seg.Act.tick, Seg.Act.tick] 1 rfl (by decide)⟩

/-- Claim C7: a failed chunk is retried `MAX_RETRIES = 3` times with a
fixed `RETRY_DELAY = 100` ms backoff before `playChunk` returns failure
(4 attempts, 300 ms of backoff in total, when every attempt fails, no
stop was requested and the context is not suspended); the scheduler's
`playSegment` loop then advances past the failed chunk without emitting
an event and dispatches the segment's next chunk — a failed buffer
neither blocks subsequent buffers nor aborts the response. -/
theorem playChunk_retry_then_skip :
    (∀ attemptFails : Nat → Bool, (∀ k, attemptFails k = true) →
      Player.playChunk attemptFails false false = (false, 4, 300)) ∧
    ∀ s s₁ : Seg.SegState, s.pc = Seg.PC.dispatched →
      Seg.step s Seg.Act.playFail = some s₁ →
      s₁.cursor = s.cursor + 1 ∧ s₁.events = s.events ∧
      (s.isPlaying = true → s.cursor + 1 < s.chunks.length →
        ∃ s₂, Seg.step s₁ Seg.Act.tick = some s₂ ∧
          s₂.pc = Seg.PC.dispatched ∧ s₂.pendingIdx = s.cursor + 1) := by
  constructor
  · intro attemptFails hf
    simp [Player.playChunk, Player.playChunkFrom, hf, Player.MAX_RETRIES,
      Player.RETRY_DELAY]
  · intro s s₁ hpc h
    rw [Seg.step, if_pos hpc] at h
    simp only [Option.some.injEq] at h
    subst h
    refine ⟨rfl, rfl, fun hp hc => ?_⟩
    have hstep2 : Seg.step { s with cursor := s.cursor + 1, pc := Seg.PC.check }
        Seg.Act.tick = some { s with
          cursor := s.cursor + 1
          pc := Seg.PC.dispatched
          pendingIdx := s.cursor + 1
          pendingPortion :=
            Seg.textPortion s.text (s.cursor + 1) s.chunks.length } := by
      simp only [Seg.step]
      rw [if_neg (by simp [hp]), if_pos (by simpa using hc)]
    exact ⟨_, hstep2, rfl, rfl⟩

/-- Witness for C7: all-failing attempts at concrete inputs, and the
skip-then-dispatch behaviour on a concrete two-chunk segment. -/
theorem playChunk_retry_then_skip_witness :
    Player.playChunk (fun _ => true) false false = (false, 4, 300) ∧
    (1 = 0 + 1 ∧ ([] : List Seg.Event) = [] ∧
     (true = true → 0 + 1 < 2 →
       ∃ s₂, Seg.step (⟨"hello world", [[1], [2]], 1, true, false, true,
           false, true, Seg.PC.check, 0, "", []⟩ : Seg.SegState)
           Seg.Act.tick = some s₂ ∧
         s₂.pc = Seg.PC.dispatched ∧ s₂.pendingIdx = 0 + 1)) :=
  ⟨playChunk_retry_then_skip.1 (fun _ => true) (fun _ => rfl),
   playChunk_retry_then_skip.2
     ⟨"hello world", [[1], [2]], 0, true, false, true, false, true,
       Seg.PC.dispatched, 0, "", []⟩
     ⟨"hello world", [[1], [2]], 1, true, false, true, false, true,
       Seg.PC.check, 0, "", []⟩
     rfl (by decide)⟩

namespace Queue

theorem insertByPriority_perm (x : TextSegment) (l : List TextSegment) :
    (insertByPriority x l).Perm (x :: l) := by
  induction l with
  | nil => simp [insertByPriority]
  | cons y ys ih =>
      unfold insertByPriority
      split
      · exact List.Perm.refl _
      · exact (ih.cons y).trans (List.Perm.swap x y ys)

theorem sortByPriority_perm (l : List TextSegment) :
    (sortByPriority l).Perm l := by
  unfold sortByPriority
  induction l with
  | nil => exact List.Perm.refl _
  | cons y ys ih =>
      simp only [List.foldr_cons]
      exact (insertByPriority_perm y _).trans (ih.cons y)

end Queue

/-- Claim C9: when the queue already holds at least `maxQueueSize`
segments, `addSegment` with a valid segment does not reject it: it
evicts the oldest (front) queued segment — whose audio buffers
`cleanupSegment` frees — enqueues the prepared new segment (the queue
after the call is a permutation of the old queue's tail plus the new
segment, so its length is unchanged), and returns `true`. -/
theorem addSegment_full_queue (cfg : Queue.ResolvedConfig)
    (st : Queue.QueueState) (seg : Queue.TextSegment)
    (hfull : cfg.maxQueueSize ≤ st.queue.length)
    (hmax : 0 < cfg.maxQueueSize)
    (hid : seg.id ≠ "") (htext : seg.text ≠ "") :
    (Queue.addSegment cfg st seg).1 = true ∧
    ((Queue.addSegment cfg st seg).2.queue.Perm
      (st.queue.tail ++ [{ seg with
        priority := some (seg.priority.getD 0)
        isPlaying := false
        isComplete := false }])) ∧
    (Queue.addSegment cfg st seg).2.queue.length = st.queue.length ∧
    ∀ old : Queue.TextSegment, (Queue.cleanupSegment old).audioChunks = [] ∧
      (Queue.cleanupSegment old).isPlaying = false := by
  have hne : ¬ (seg.id = "" ∨ seg.text = "") := by
    rintro (h | h)
    · exact hid h
    · exact htext h
  have hq : (Queue.addSegment cfg st seg).1 = true ∧
      (Queue.addSegment cfg st seg).2.queue =
        (if cfg.enablePrioritization then
          Queue.sortByPriority (st.queue.tail ++ [{ seg with
            priority := some (seg.priority.getD 0)
            isPlaying := false
            isComplete := false }])
        else st.queue.tail ++ [{ seg with
          priority := some (seg.priority.getD 0)
          isPlaying := false
          isComplete := false }]) := by
    unfold Queue.addSegment
    rw [if_neg hne, if_pos hfull]
    exact ⟨rfl, rfl⟩
  refine ⟨hq.1, ?_, ?_, fun old => ⟨rfl, rfl⟩⟩
  · rw [hq.2]
    split
    · exact Queue.sortByPriority_perm _
    · exact List.Perm.refl _
  · have hlen : (Queue.addSegment cfg st seg).2.queue.length =
        st.queue.tail.length + 1 := by
      rw [hq.2]
      split
      · rw [(Queue.sortByPriority_perm _).length_eq]
        simp
      · simp
    rw [hlen, List.length_tail]
    omega

/-- Witness for C9: a full one-slot queue accepts a new segment, evicting
the old one. -/
theorem addSegment_full_queue_witness :
    ((Queue.resolveConfig { maxQueueSize := some 1 }).maxQueueSize ≤ 1 ∧
      0 < (Queue.resolveConfig { maxQueueSize := some 1 }).maxQueueSize ∧
      ("b" : String) ≠ "" ∧ ("t2" : String) ≠ "") ∧
    (Queue.addSegment (Queue.resolveConfig { maxQueueSize := some 1 })
      ⟨[⟨"a", "t1", [[7]], false, false, some 0, false⟩], [], [], false,
        false⟩
      ⟨"b", "t2", [], false, false, none, false⟩).1 = true :=
  ⟨⟨by decide, by decide, by decide, by decide⟩,
    (addSegment_full_queue (Queue.resolveConfig { maxQueueSize := some 1 })
      ⟨[⟨"a", "t1", [[7]], false, false, some 0, false⟩], [], [], false,
        false⟩
      ⟨"b", "t2", [], false, false, none, false⟩
      (by decide) (by decide) (by decide) (by decide)).1⟩

/-- Claim C10: `clearAndReset` modifies only the queued set, the active
set and the processing flags; the completed-segments map — and therefore
`getStatus().completedSegments` — is exactly what it was before the
call. -/
theorem clearAndReset_frame (st : Queue.QueueState) :
    (Queue.clearAndReset st).completedSegments = st.completedSegments ∧
    (Queue.getStatus (Queue.clearAndReset st)).completedSegments =
      (Queue.getStatus st).completedSegments ∧
    (Queue.clearAndReset st).queue = [] ∧
    (Queue.clearAndReset st).activeSegments = [] ∧
    (Queue.clearAndReset st).isProcessing = false ∧
    (Queue.clearAndReset st).isPaused = false :=
  ⟨rfl, rfl, rfl, rfl, rfl, rfl⟩
